import Mathlib

/-!
Verification of the Talon alert poller against its specification.

This file shallowly embeds the parts of the Talon source that the spec
claims are about:

* `src/talon/api/client.py` — `query_alert_ids` (paginated id query with
  429 handling) and `fetch_alerts` (chunked bulk fetch);
* `src/talon/ui/repl.py` — the `_watch` loop: display-id derivation, the
  id cache, dedup, filtering, store, and watermark advancement, plus the
  exception-handler structure of the loop;
* `src/talon/config/settings.py` — `matches_filter`;
* `src/talon/database/alerts_db.py` — `store_alert` over the `alerts`
  table (SQLite `INSERT OR REPLACE` with primary key `id` and
  `UNIQUE(full_id)`), and `export_alerts_json`;
* `src/talon/utils/time_helpers.py` — `pick_created_iso`.

Python values that the code treats by truthiness (empty string / `None`
falsy) are embedded as `Option String` with an explicit truthiness test,
and Python `int(...)` conversion is embedded with its `ValueError` /
`TypeError` distinction, since the filter code catches only `ValueError`.
-/

namespace Talon

/-! ## Python exception kinds distinguished by the code -/

/-- The exception classes the Talon code distinguishes: `RequestException`
(network/HTTP), `KeyboardInterrupt`, `sqlite3.Error` (storage),
`ValueError` and `TypeError` (both from `int(...)` / parsing), and
`AttributeError` (calling `.lower()` on a non-string). -/
inductive PyExc where
  | requestException
  | keyboardInterrupt
  | storageError
  | valueError
  | typeError
  | attributeError
deriving DecidableEq, Repr

/-! ## Python string truthiness and `or` chains -/

/-- Truthiness of an optional string: `None` and the empty string are
falsy, any other string is truthy. -/
def truthyO (x : Option String) : Bool :=
  match x with
  | Option.none => false
  | Option.some s => s ≠ ""

/-- Python `x or y` on optional strings: evaluates to `y` when `x` is
falsy (`None` or empty), else `x`. -/
def pyOrS (x y : Option String) : Option String :=
  if truthyO x then x else y

/-! ## Substring search (Python `in` and `str.find`) -/

/-- Index of the first occurrence of `pat` in the trailing segment of a
character list, offset by `i`; `Option.none` if absent.  Mirrors Python
`str.find` (which returns a character index). -/
def findSubAux (pat : List Char) : List Char → Nat → Option Nat
  | [], i => if pat.isEmpty then Option.some i else Option.none
  | c :: rest, i =>
    if pat.isPrefixOf (c :: rest) then Option.some i
    else findSubAux pat rest (i + 1)

/-- Python `s.find(pat)` as an `Option Nat` (character index). -/
def strFind (s pat : String) : Option Nat :=
  findSubAux pat.data s.data 0

/-- Python `pat in s` substring membership. -/
def strContainsSub (s pat : String) : Bool :=
  (strFind s pat).isSome

/-! ## Python `int(...)` conversion -/

/-- Whitespace characters stripped by Python `int(str)` (ASCII subset). -/
def isPySpace (c : Char) : Bool :=
  c = ' ' || c = '\t' || c = '\n' || c = '\r' || c = '\x0b' || c = '\x0c'

/-- Strip leading and trailing whitespace from a character list. -/
def pyStripChars (cs : List Char) : List Char :=
  ((cs.dropWhile isPySpace).reverse.dropWhile isPySpace).reverse

/-- Whether a character list contains two adjacent underscores. -/
def hasDoubleUnderscore : List Char → Bool
  | '_' :: '_' :: _ => true
  | _ :: rest => hasDoubleUnderscore rest
  | [] => false

/-- Valid digit part of a Python integer literal: nonempty, digits with
optional single underscores strictly between digits. -/
def validPyDigits (ds : List Char) : Bool :=
  !ds.isEmpty
    && ds.head? ≠ Option.some '_'
    && ds.getLast? ≠ Option.some '_'
    && ds.all (fun c => c.isDigit || c = '_')
    && !hasDoubleUnderscore ds

/-- Numeric value of a digit list (underscores removed beforehand). -/
def digitsVal (ds : List Char) : Nat :=
  ds.foldl (fun n c => n * 10 + (c.toNat - '0'.toNat)) 0

/-- Python `int(s)` on a string: strips whitespace, accepts an optional
sign and digits (with underscore separators); `Option.none` models a
`ValueError`. -/
def pyIntStr (s : String) : Option Int :=
  let cs := pyStripChars s.data
  let signDigits : Int × List Char :=
    match cs with
    | '-' :: rest => (-1, rest)
    | '+' :: rest => (1, rest)
    | _ => (1, cs)
  if validPyDigits signDigits.2 then
    Option.some (signDigits.1 * Int.ofNat (digitsVal (signDigits.2.filter (fun c => c ≠ '_'))))
  else Option.none

/-! ## The alert record model

The vendor alert is an open key-value document; we model exactly the
fields the verified code reads.  A missing field is `Option.none`
(`dict.get` returns the default).  The `severity` field may hold values
of several JSON types, because `matches_filter` applies `int(...)` to it
and its error behaviour depends on the type. -/

/-- A JSON value in the `severity` slot: absent key, JSON null, a number,
or a string. -/
inductive SevVal where
  | absent
  | vnull
  | vint (n : Int)
  | vstr (s : String)
deriving DecidableEq, Repr

/-- Python `int(alert.get("severity", 0))`: absent gives the default `0`;
an unparseable string raises `ValueError`; `None` raises `TypeError`. -/
def pyIntSev (v : SevVal) : Except PyExc Int :=
  match v with
  | SevVal.absent => Except.ok 0
  | SevVal.vint n => Except.ok n
  | SevVal.vstr s =>
    match pyIntStr s with
    | Option.some n => Except.ok n
    | Option.none => Except.error PyExc.valueError
  | SevVal.vnull => Except.error PyExc.typeError

/-- The `device` sub-object, of which the code reads `hostname`.  The
hostname slot is a typed JSON value (`SevVal.absent` for a missing key),
because `matches_filter` calls `.lower()` on it and that raises an
`AttributeError` whenever the present value is not a string. -/
structure DeviceInfo where
  hostname : SevVal := SevVal.absent
deriving DecidableEq, Repr

/-- The fields of a vendor alert record that the verified code reads. -/
structure Alert where
  composite_id : Option String := Option.none
  id : Option String := Option.none
  name : Option String := Option.none
  description : Option String := Option.none
  severity : SevVal := SevVal.absent
  status : Option String := Option.none
  product : Option String := Option.none
  device : Option DeviceInfo := Option.none
  created_timestamp : Option String := Option.none
  timestamp : Option String := Option.none
  updated_timestamp : Option String := Option.none
deriving DecidableEq, Repr

/-- `pick_created_iso` from `time_helpers.py`: the Python `or` chain
`created_timestamp or timestamp or updated_timestamp`. -/
def pick_created_iso (a : Alert) : Option String :=
  pyOrS (pyOrS a.created_timestamp a.timestamp) a.updated_timestamp

/-- The sort/watermark key used in `_watch`: `pick_created_iso(a) or ""`. -/
def keyOf (a : Alert) : String :=
  (pick_created_iso a).getD ""

/-- The full identifier line of `_watch`:
`a.get("composite_id") or a.get("id") or "unknown-id"`. -/
def fullIdOf (a : Alert) : String :=
  ((pyOrS (pyOrS a.composite_id a.id) (Option.some "unknown-id")).getD "unknown-id")

/-! ## Display-id derivation (`_watch`, repl.py lines 491-499) -/

/-- Derivation of the display id from the full identifier: if the string
contains `:ind:`, take the suffix from the first occurrence of `ind:`;
else if it contains `:det:`, from the first `det:`; else unchanged. -/
def derive_display_id (full : String) : String :=
  if strContainsSub full ":ind:" then
    match strFind full "ind:" with
    | Option.some k => String.mk (full.data.drop k)
    | Option.none => full
  else if strContainsSub full ":det:" then
    match strFind full "det:" with
    | Option.some k => String.mk (full.data.drop k)
    | Option.none => full
  else full

/-! ## The alert filter (`models/filters.py`, `settings.matches_filter`) -/

/-- `AlertFilter` configuration.  The `status` field exists but is never
consulted by `matches_filter`. -/
structure AlertFilter where
  severity_min : Option Int := Option.none
  product : Option String := Option.none
  hostname : Option String := Option.none
  status : Option String := Option.none
  keywords : List String := []
deriving DecidableEq, Repr

/-- Python `str.upper` (ASCII case mapping, the range the code uses). -/
def pyUpper (s : String) : String := String.mk (s.data.map Char.toUpper)

/-- Python `str.lower` (ASCII case mapping, the range the code uses). -/
def pyLower (s : String) : String := String.mk (s.data.map Char.toLower)

/-- The severity branch of `matches_filter`: `int(...)` applied inside
`try/except ValueError`, so a `ValueError` is swallowed (record passes
the branch, fail-open) while any other exception — such as the
`TypeError` from `int(None)` — propagates.  `Except.ok false` means the
record is rejected for severity below the minimum. -/
def severity_check (a : Alert) (f : AlertFilter) : Except PyExc Bool :=
  match f.severity_min with
  | Option.none => Except.ok true
  | Option.some m =>
    match pyIntSev a.severity with
    | Except.ok sev => Except.ok (decide (m ≤ sev))
    | Except.error PyExc.valueError => Except.ok true
    | Except.error e => Except.error e

/-- Whether a JSON value in a string slot is an actual string. -/
def isStrVal (v : SevVal) : Bool :=
  match v with
  | SevVal.vstr _ => true
  | _ => false

/-- The value `dev.get("hostname", "") if isinstance(dev, dict) else ""`
evaluates to: the empty string when the device sub-object or the key is
missing, otherwise whatever JSON value the key holds. -/
def hostValOf (a : Alert) : SevVal :=
  match a.device with
  | Option.none => SevVal.vstr ""
  | Option.some d =>
    match d.hostname with
    | SevVal.absent => SevVal.vstr ""
    | v => v

/-- The hostname branch of `matches_filter` (settings.py 103-106): when
a hostname constraint is set, `host.lower()` is called on the record's
hostname value — an `AttributeError` if that value is present but not a
string (for example JSON null) — and compared as a case-insensitive
substring. -/
def hostname_check (a : Alert) (f : AlertFilter) : Except PyExc Bool :=
  if truthyO f.hostname then
    match hostValOf a with
    | SevVal.vstr s =>
      Except.ok (strContainsSub (pyLower s) (pyLower (f.hostname.getD "")))
    | _ => Except.error PyExc.attributeError
  else Except.ok true

/-- The product, hostname and keyword branches of `matches_filter`:
case-insensitive substring constraints on product and device hostname,
and an any-keyword constraint on name plus description; an absent or
empty constraint imposes nothing.  Only the hostname branch can raise
(`.lower()` on a non-string hostname). -/
def matches_rest (a : Alert) (f : AlertFilter) : Except PyExc Bool :=
  let prodOk :=
    if truthyO f.product then
      strContainsSub (pyUpper (a.product.getD "")) (pyUpper (f.product.getD ""))
    else true
  if !prodOk then Except.ok false
  else
    match hostname_check a f with
    | Except.error e => Except.error e
    | Except.ok false => Except.ok false
    | Except.ok true =>
      let text := pyLower ((a.name.getD "") ++ " " ++ (a.description.getD ""))
      let kwOk :=
        if f.keywords.isEmpty then true
        else f.keywords.any (fun kw => strContainsSub text (pyLower kw))
      Except.ok kwOk

/-- `matches_filter` from `settings.py`: the severity branch may raise
or reject; the remaining constraints are AND-combined, with the
hostname branch able to raise. -/
def matches_filter (a : Alert) (f : AlertFilter) : Except PyExc Bool :=
  match severity_check a f with
  | Except.error e => Except.error e
  | Except.ok false => Except.ok false
  | Except.ok true => matches_rest a f

/-! ## The alert store (`alerts_db.py`)

The `alerts` table has `id TEXT PRIMARY KEY`, `short_id`, `full_id` with
`UNIQUE(full_id)`, denormalized search columns, and `raw_data` holding
the JSON-serialized original record.  We model the table as a list of
rows; `json.dumps`/`json.loads` round-trip of a record is modeled by
storing the record value itself in `raw`.  SQLite `INSERT OR REPLACE`
deletes every row conflicting on the primary key or a unique constraint
and inserts the new row. -/

/-- One row of the `alerts` table. -/
structure Row where
  id : String
  short_id : String
  full_id : String
  name : Option String
  description : Option String
  severity : SevVal
  status : Option String
  product : Option String
  hostname : SevVal
  created_timestamp : Option String
  updated_timestamp : Option String
  raw : Alert
deriving DecidableEq, Repr

/-- The `alerts` table. -/
abbrev Table := List Row

/-- The value `device.get("hostname") if isinstance(device, dict) else
None` stored in the hostname column: Python `None` (`SevVal.vnull`) when
the device or the key is missing, else the key's JSON value. -/
def storedHostname (a : Alert) : SevVal :=
  match a.device with
  | Option.none => SevVal.vnull
  | Option.some d =>
    match d.hostname with
    | SevVal.absent => SevVal.vnull
    | v => v

/-- The row `store_alert` inserts: `id` and `short_id` are both the short
id, the denormalized columns come from the record, `raw_data` keeps the
complete record. -/
def mkRow (a : Alert) (short_id full_id : String) : Row :=
  { id := short_id
    short_id := short_id
    full_id := full_id
    name := a.name
    description := a.description
    severity := a.severity
    status := a.status
    product := a.product
    hostname := storedHostname a
    created_timestamp := a.created_timestamp
    updated_timestamp := a.updated_timestamp
    raw := a }

/-- `store_alert`: check whether a row with this `full_id` exists, then
`INSERT OR REPLACE`; returns `(was_new, table)` where `was_new` is true
iff no row with this `full_id` pre-existed. -/
def store_alert (t : Table) (a : Alert) (short_id full_id : String) : Bool × Table :=
  let preexists := t.any (fun r => r.full_id == full_id)
  let t2 := t.filter (fun r => r.id ≠ short_id && r.full_id ≠ full_id) ++ [mkRow a short_id full_id]
  (!preexists, t2)

/-- Fold `store_alert` over a batch of `(record, short_id, full_id)`
triples, discarding the booleans (as the poller does when counting). -/
def storeAll (t : Table) (items : List (Alert × String × String)) : Table :=
  items.foldl (fun t p => (store_alert t p.1 p.2.1 p.2.2).2) t

/-! ## SQLite text ordering for `ORDER BY created_timestamp DESC`

SQLite compares TEXT bytewise (UTF-8 preserves codepoint order, matching
Lean's `String` order) and sorts NULL below every value, so `DESC` puts
NULL rows last. -/

/-- SQLite `≤` on a nullable TEXT column: NULL sorts below everything. -/
def sqliteLE (x y : Option String) : Bool :=
  match x, y with
  | Option.none, _ => true
  | Option.some _, Option.none => false
  | Option.some a, Option.some b => a ≤ b

/-- Row order produced by `ORDER BY created_timestamp DESC`. -/
def rowDescRel (r1 r2 : Row) : Prop :=
  sqliteLE r2.created_timestamp r1.created_timestamp = true

instance : DecidableRel rowDescRel := fun x y =>
  inferInstanceAs (Decidable (sqliteLE y.created_timestamp x.created_timestamp = true))

/-- `export_alerts_json`: select `raw_data` ordered by creation timestamp
descending, parse each, dump the array, and return the count. -/
def export_alerts_json (t : Table) : List Alert × Nat :=
  let rows := List.insertionSort rowDescRel t
  (rows.map Row.raw, (rows.map Row.raw).length)

/-! ## The id cache (a Python dict from display id to full id) -/

/-- Python `d[k] = v` on an association list: overwrite in place if the
key exists, else append. -/
def dictSet (c : List (String × String)) (k v : String) : List (String × String) :=
  if c.any (fun p => p.1 == k) then
    c.map (fun p => if p.1 == k then (k, v) else p)
  else c ++ [(k, v)]

/-- Cache update performed per record in `_watch` (repl.py 491-499):
`self.alert_id_cache[aid] = aid_full` with `aid` the derived display id
and `aid_full` the original full identifier. -/
def recordCacheUpdate (c : List (String × String)) (a : Alert) : List (String × String) :=
  dictSet c (derive_display_id (fullIdOf a)) (fullIdOf a)

/-- Invariant of the id cache: every entry maps the derived display form
of its value, and the stored value is the untransformed full id. -/
def cacheOriginalInv (c : List (String × String)) : Bool :=
  c.all (fun p => p.1 == derive_display_id p.2)

/-! ## Session statistics (`AlertStats.add_alert`) -/

/-- Bump a string-keyed counter. -/
def dictIncr (d : List (String × Nat)) (k : String) : List (String × Nat) :=
  if d.any (fun p => p.1 == k) then
    d.map (fun p => if p.1 == k then (p.1, p.2 + 1) else p)
  else d ++ [(k, 1)]

/-- `str()` of the severity slot with default "unknown" for a missing
key, as `str(alert.get("severity", "unknown"))`. -/
def pyStrSev (v : SevVal) : String :=
  match v with
  | SevVal.absent => "unknown"
  | SevVal.vnull => "None"
  | SevVal.vint n => toString n
  | SevVal.vstr s => s

/-- `AlertStats` counters. -/
structure AlertStats where
  total_alerts : Nat := 0
  alerts_by_severity : List (String × Nat) := []
  alerts_by_product : List (String × Nat) := []
deriving DecidableEq, Repr

/-- `AlertStats.add_alert`. -/
def statsAdd (s : AlertStats) (a : Alert) : AlertStats :=
  { total_alerts := s.total_alerts + 1
    alerts_by_severity := dictIncr s.alerts_by_severity (pyStrSev a.severity)
    alerts_by_product := dictIncr s.alerts_by_product ((a.product.map (fun p => p)).getD "unknown") }

/-! ## The watch loop (`_watch` in repl.py)

Mutable state of one watch session plus the REPL-object state the loop
touches.  `since` is `last_created_iso`, `seen` is `seen_ids`, `cache`
is `alert_id_cache`, `db` the alert store, `newCount`
`new_alerts_count`. -/

structure WatchState where
  since : String
  seen : List String := []
  cache : List (String × String) := []
  db : Table := []
  stats : AlertStats := {}
  newCount : Nat := 0
deriving DecidableEq, Repr

/-- Iteration-local accumulator: the running state, the iteration's
high-water mark `max_created_seen`, and the records emitted to the
output sink this iteration. -/
structure IterAcc where
  st : WatchState
  maxCreated : Option String := Option.none
  emitted : List Alert := []
deriving DecidableEq, Repr

/-- Behaviour of `alerts_db.store_alert` as seen by the loop: either the
pure result or a raised storage exception. -/
def StoreFun : Type :=
  Table → Alert → String → String → Except PyExc (Bool × Table)

/-- The normally functioning store. -/
def okStore : StoreFun :=
  fun t a s f => Except.ok (store_alert t a s f)

/-- A store whose upsert raises `sqlite3.Error`. -/
def failingStore : StoreFun :=
  fun _ _ _ _ => Except.error PyExc.storageError

/-- Processing of one record in the `_watch` per-alert loop, in source
order: derive ids and update the cache; skip if already seen; evaluate
the filter (which may raise); update stats; format the timestamp
(`parse_iso_utc` raises `ValueError` on a malformed truthy timestamp —
its success is abstracted by the predicate `pOk`); emit; store (which
may raise); mark seen; update the iteration high-water mark. -/
def processOneG (fil : AlertFilter) (pOk : String → Bool) (storeF : StoreFun)
    (acc : IterAcc) (a : Alert) : Except PyExc IterAcc :=
  let full := fullIdOf a
  let aid := derive_display_id full
  let st0 := { acc.st with cache := dictSet acc.st.cache aid full }
  if st0.seen.contains aid then Except.ok { acc with st := st0 }
  else
    match matches_filter a fil with
    | Except.error e => Except.error e
    | Except.ok false => Except.ok { acc with st := st0 }
    | Except.ok true =>
      let st1 := { st0 with stats := statsAdd st0.stats a }
      let created := pick_created_iso a
      if truthyO created && !pOk (created.getD "") then Except.error PyExc.valueError
      else
        let emitted := acc.emitted ++ [a]
        match storeF st1.db a aid full with
        | Except.error e => Except.error e
        | Except.ok (isNew, db2) =>
          let st2 := { st1 with
            db := db2
            newCount := st1.newCount + (if isNew then 1 else 0)
            seen := st1.seen.insert aid }
          let maxC :=
            if truthyO created then
              match acc.maxCreated with
              | Option.none => Option.some (created.getD "")
              | Option.some m =>
                if m < created.getD "" then Option.some (created.getD "") else acc.maxCreated
            else acc.maxCreated
          Except.ok { st := st2, maxCreated := maxC, emitted := emitted }

/-- Ascending sort of the fetched records by creation key, the
`alerts.sort(key=...)` call of `_watch`. -/
def sortByCreated (l : List Alert) : List Alert :=
  List.insertionSort (fun a b => keyOf a ≤ keyOf b) l

/-- One poll iteration of `_watch`, parametrized by the store behaviour:
drop already-seen ids, fetch, sort ascending by creation key, process
each record, then advance the watermark to the iteration high-water
mark if one was recorded.  Returns the new state and the records
emitted to the output sink. -/
def watchIterG (fil : AlertFilter) (pOk : String → Bool) (storeF : StoreFun)
    (fetch : List String → List Alert) (st : WatchState) (ids : List String) :
    Except PyExc (WatchState × List Alert) :=
  let newIds := ids.filter (fun i => !st.seen.contains i)
  if newIds.isEmpty then Except.ok (st, [])
  else
    let alerts := fetch newIds
    match List.foldlM (processOneG fil pOk storeF) (IterAcc.mk st Option.none []) (sortByCreated alerts) with
    | Except.error e => Except.error e
    | Except.ok acc =>
      let stF :=
        if truthyO acc.maxCreated then { acc.st with since := acc.maxCreated.getD "" }
        else acc.st
      Except.ok (stF, acc.emitted)

/-- One poll iteration with the normally functioning store. -/
def watchIter (fil : AlertFilter) (pOk : String → Bool)
    (fetch : List String → List Alert) (st : WatchState) (ids : List String) :
    Except PyExc (WatchState × List Alert) :=
  watchIterG fil pOk okStore fetch st ids

/-! ## Exception handling structure of `_watch` (repl.py 592-606) -/

/-- What the watch loop does after one iteration body finishes or
raises. -/
inductive WatchOutcome where
  | nextPoll
  | backoffContinue
  | sessionEnd (errorLogged : Bool)
deriving DecidableEq, Repr

/-- The inner `except RequestException` handler: logs, sleeps 5s, and
continues polling; every other exception propagates. -/
def innerExcHandler (e : PyExc) : Option WatchOutcome :=
  match e with
  | PyExc.requestException => Option.some WatchOutcome.backoffContinue
  | _ => Option.none

/-- The outer handlers: `except KeyboardInterrupt` prints the session
summary and returns, `except Exception` logs the error and returns. -/
def outerExcHandler (e : PyExc) : WatchOutcome :=
  if e = PyExc.keyboardInterrupt then WatchOutcome.sessionEnd false
  else WatchOutcome.sessionEnd true

/-- Net effect of an exception escaping the iteration body. -/
def watchExcOutcome (e : PyExc) : WatchOutcome :=
  (innerExcHandler e).getD (outerExcHandler e)

/-- Outcome of a whole iteration result. -/
def iterationOutcome (r : Except PyExc (WatchState × List Alert)) : WatchOutcome :=
  match r with
  | Except.ok _ => WatchOutcome.nextPoll
  | Except.error e => watchExcOutcome e

/-! ## A multi-iteration watch session -/

/-- The environment of one poll iteration: the id query and the bulk
fetch, as the synthetic API of the spec's testable properties. -/
structure Env where
  query : String → List String
  fetch : List String → List Alert

/-- Run a sequence of poll iterations.  An iteration that raises a
`RequestException` backs off and keeps the state; any other exception
ends the session with the state as it was at the start of the
iteration (the watermark assignment sits at the end of the loop
body). -/
def runWatch (fil : AlertFilter) (pOk : String → Bool) :
    List Env → WatchState → WatchState
  | [], st => st
  | e :: rest, st =>
    match watchIter fil pOk e.fetch st (e.query st.since) with
    | Except.ok (st2, _) => runWatch fil pOk rest st2
    | Except.error exc =>
      if exc = PyExc.requestException then runWatch fil pOk rest st else st

/-- The synthetic-API assumption of the spec: every record fetched for
ids produced by a query at watermark `s` carries, when it has a truthy
creation key at all, a key at or after `s` (the server filters on
`created_timestamp > s`; equality covers re-delivery at the watermark). -/
def GoodEnv (e : Env) : Prop :=
  ∀ (s : String) (l : List String), l ⊆ e.query s →
    ∀ a ∈ e.fetch l, truthyO (pick_created_iso a) = true → s ≤ keyOf a

/-- Creation keys of the records accepted in an iteration (those emitted
with a truthy creation timestamp). -/
def truthyKeys (l : List Alert) : List String :=
  l.filterMap (fun a =>
    if truthyO (pick_created_iso a) then Option.some (keyOf a) else Option.none)

/-- One step of the `max_created_seen` fold: take the new key when no
mark is set yet or the key is strictly larger. -/
def maxStep (m : Option String) (k : String) : Option String :=
  match m with
  | Option.none => Option.some k
  | Option.some mv => if mv < k then Option.some k else Option.some mv

/-- Maximum of a list of strings, folded the way the loop folds
`max_created_seen`. -/
def listMaxS (l : List String) : Option String :=
  l.foldl maxStep Option.none

/-! ## The paginated id query (`query_alert_ids`, client.py 63-106)

The loop is driven by scripted HTTP responses, one per request issued.
A 429 response makes the client sleep `int(headers.get("Retry-After",
"2")) or 2` seconds and `continue` without touching `params` — the next
request repeats the same offset.  Any 4xx/5xx raises through
`raise_for_status` as a `RequestException`; an exhausted script stands
for an unreachable server, also a `RequestException`. -/

/-- One scripted HTTP response to the id query. -/
inductive QResp where
  | rateLimited (retryAfter : Option String)
  | okPage (resources : List String) (offset limit total : Option Int)
  | httpError (code : Nat)
deriving DecidableEq, Repr

/-- The backoff computation `int(headers.get("Retry-After", "2")) or 2`:
defaults to 2 when the header is absent, maps an explicit 0 to 2, and
raises `ValueError` on a malformed header. -/
def retrySleepSecs (retryAfter : Option String) : Except PyExc Int :=
  match pyIntStr (retryAfter.getD "2") with
  | Option.none => Except.error PyExc.valueError
  | Option.some n => Except.ok (if n = 0 then 2 else n)

deriving instance DecidableEq for Except

/-- Trace of one query run: the result, the offset parameter of each
request issued, and each sleep performed. -/
structure QueryRun where
  result : Except PyExc (List String)
  offsetsUsed : List Int
  sleeps : List Int
deriving DecidableEq, Repr

/-- The pagination loop of `query_alert_ids` over a response script.
`off` is `params["offset"]` (initially 0) and `acc` the ids collected;
the meta defaults are `offset→0`, `limit→len(resources)`,
`total→len(resources)`; the loop continues while `offset + limit <
total`, advancing the offset parameter. -/
def queryLoop : List QResp → Int → List String → QueryRun
  | [], _, _ =>
    { result := Except.error PyExc.requestException, offsetsUsed := [], sleeps := [] }
  | QResp.rateLimited ra :: rest, off, acc =>
    match retrySleepSecs ra with
    | Except.error e => { result := Except.error e, offsetsUsed := [off], sleeps := [] }
    | Except.ok secs =>
      let run := queryLoop rest off acc
      { result := run.result, offsetsUsed := off :: run.offsetsUsed, sleeps := secs :: run.sleeps }
  | QResp.httpError _ :: _, off, _ =>
    { result := Except.error PyExc.requestException, offsetsUsed := [off], sleeps := [] }
  | QResp.okPage resources moff mlim mtot :: rest, off, acc =>
    let acc2 := acc ++ resources
    let offMeta := moff.getD 0
    let lim := mlim.getD (Int.ofNat resources.length)
    let total := mtot.getD (Int.ofNat resources.length)
    if offMeta + lim < total then
      let run := queryLoop rest (offMeta + lim) acc2
      { result := run.result, offsetsUsed := off :: run.offsetsUsed, sleeps := run.sleeps }
    else { result := Except.ok acc2, offsetsUsed := [off], sleeps := [] }

/-- `query_alert_ids` entered with `offset = "0"` and no ids yet. -/
def query_alert_ids (script : List QResp) : QueryRun :=
  queryLoop script 0 []

/-- The watch iteration fed by a query result: a query failure hits the
loop's exception handlers, a success runs the iteration body. -/
def stepWithQuery (fil : AlertFilter) (pOk : String → Bool)
    (fetch : List String → List Alert) (st : WatchState)
    (q : Except PyExc (List String)) : WatchState × WatchOutcome :=
  match q with
  | Except.error e => (st, watchExcOutcome e)
  | Except.ok ids =>
    match watchIter fil pOk fetch st ids with
    | Except.ok (st2, _) => (st2, WatchOutcome.nextPoll)
    | Except.error e => (st, watchExcOutcome e)

/-! ## The chunked bulk fetch (`fetch_alerts`, client.py 108-144) -/

/-- One scripted HTTP response to a bulk-fetch POST. -/
structure FetchResp where
  code : Nat := 200
  retryAfter : Option String := Option.none
  resources : List Alert := []
deriving DecidableEq, Repr

/-- Responses of the entity endpoint for a chunk: the first POST's
response and the response to the single retry POST used after a 429. -/
def FetchNet : Type :=
  List String → FetchResp × FetchResp

/-- `r.raise_for_status()`: any status at or above 400 raises an
`HTTPError`, a `RequestException`. -/
def raiseForStatus (code : Nat) : Except PyExc Unit :=
  if 400 ≤ code then Except.error PyExc.requestException else Except.ok ()

/-- Handling of one chunk: POST; on a 429 sleep per `Retry-After` and
POST once more; then `raise_for_status` on the final response and take
its `resources`.  Also returns how many requests this chunk issued. -/
def fetchOneChunk (net : FetchNet) (chunk : List String) :
    Except PyExc (List Alert) × Nat :=
  let r1 := (net chunk).1
  if r1.code = 429 then
    match retrySleepSecs r1.retryAfter with
    | Except.error e => (Except.error e, 1)
    | Except.ok _ =>
      let r2 := (net chunk).2
      match raiseForStatus r2.code with
      | Except.error e => (Except.error e, 2)
      | Except.ok _ => (Except.ok r2.resources, 2)
  else
    match raiseForStatus r1.code with
    | Except.error e => (Except.error e, 1)
    | Except.ok _ => (Except.ok r1.resources, 1)

/-- Fuelled splitting of `range(0, len(ids), 500)` slices; the fuel is
an upper bound on the number of chunks. -/
def chunksGo : Nat → List String → List (List String)
  | 0, _ => []
  | _ + 1, [] => []
  | f + 1, x :: rest => (x :: rest).take 500 :: chunksGo f ((x :: rest).drop 500)

/-- The chunks of at most 500 ids that `fetch_alerts` iterates over. -/
def chunks500 (xs : List String) : List (List String) :=
  chunksGo xs.length xs

/-- The body loop of `fetch_alerts`: process chunks left to right,
extending the output with each chunk's resources and counting
requests; the first exception propagates. -/
def fetchAlertsAux (net : FetchNet) :
    List (List String) → List Alert → Nat → Except PyExc (List Alert) × Nat
  | [], out, n => (Except.ok out, n)
  | c :: cs, out, n =>
    let step := fetchOneChunk net c
    match step.1 with
    | Except.error e => (Except.error e, n + step.2)
    | Except.ok rs => fetchAlertsAux net cs (out ++ rs) (n + step.2)

/-- `fetch_alerts`: empty input short-circuits to an empty result with
no request; otherwise the chunk loop runs. -/
def fetch_alerts (net : FetchNet) (ids : List String) :
    Except PyExc (List Alert) × Nat :=
  if ids.isEmpty then (Except.ok [], 0)
  else fetchAlertsAux net (chunks500 ids) [] 0

/-- A server that never rate-limits or errors on the entity endpoint. -/
def OkNet (net : FetchNet) : Prop :=
  ∀ c, ((net c).1.code = 200)

/-! # Theorems -/

/-! ## C8: AND-combined filter semantics -/

/-- The record of testable property 5: severity 70, product "EDR",
hostname "web01". -/
def recC8 : Alert :=
  { severity := SevVal.vint 70
    product := Option.some "EDR"
    device := Option.some { hostname := SevVal.vstr "web01" } }

/-- C8: filter constraints are AND-combined with case-insensitive
substring matching: the record with severity 70, product "EDR",
hostname "web01" passes `{severity_min:50, product:"edr"}` but fails
`{severity_min:80}`; a filter with all constraints absent accepts every
record. -/
theorem C8_filter_and_semantics :
    matches_filter recC8 { severity_min := Option.some 50, product := Option.some "edr" }
      = Except.ok true
    ∧ matches_filter recC8 { severity_min := Option.some 80 } = Except.ok false
    ∧ ∀ a : Alert, matches_filter a {} = Except.ok true := by
  refine ⟨by decide, by decide, fun a => rfl⟩

/-! ## C3: the filter predicate and malformed severity -/

/-- A record whose severity slot holds JSON `null`. -/
def recNullSev : Alert := { severity := SevVal.vnull }

/-- C3 counterexample: the claim says `matches` never fails on any
record, but on a record whose severity is `null` and a filter with
`severity_min` set, `int(None)` raises a `TypeError`, which the
`except ValueError` handler does not catch: the predicate fails. -/
theorem C3_counterexample :
    matches_filter recNullSev { severity_min := Option.some 50 }
      = Except.error PyExc.typeError := by decide

/-- A successful hostname branch makes the rest of the predicate total:
the product and keyword branches cannot raise. -/
theorem matches_rest_isOk (a : Alert) (f : AlertFilter)
    (h : ∃ b, hostname_check a f = Except.ok b) :
    (matches_rest a f).isOk = true := by
  rcases h with ⟨b, hb⟩
  simp only [matches_rest]
  by_cases hp : (!(if truthyO f.product then
      strContainsSub (pyUpper (a.product.getD "")) (pyUpper (f.product.getD ""))
    else true)) = true
  · rw [if_pos hp]
    rfl
  · rw [if_neg hp, hb]
    rcases b with _ | _
    · rfl
    · rfl

/-- C3 amended: `matches` can fail in exactly two ways — a severity of a
non-numeric, non-string type (such as JSON null) with `severity_min`
set raises `TypeError` past the `except ValueError` handler, and a
device hostname value that is present but not a string (such as JSON
null) raises `AttributeError` from `.lower()` when a hostname
constraint is reached.  On every other record — severity absent, a
number, or a string, and the hostname value absent or a string whenever
a hostname constraint is set — the predicate does not fail; and for
every record whose severity is a string that cannot be parsed as an
integer, the `severity_min` constraint does not exclude the record
(fail-open, as if `severity_min` were unset). -/
theorem C3_amended_fail_open :
    (∀ (a : Alert) (f : AlertFilter), a.severity ≠ SevVal.vnull →
      (truthyO f.hostname = false ∨ isStrVal (hostValOf a) = true) →
      (matches_filter a f).isOk = true)
    ∧ (∀ (a : Alert) (f : AlertFilter),
        pyIntSev a.severity = Except.error PyExc.valueError →
        matches_filter a f = matches_filter a { f with severity_min := Option.none })
    ∧ (∀ (a : Alert) (f : AlertFilter), a.severity = SevVal.vnull →
        f.severity_min.isSome = true →
        matches_filter a f = Except.error PyExc.typeError)
    ∧ (∀ (a : Alert) (f : AlertFilter), f.severity_min = Option.none →
        truthyO f.product = false → truthyO f.hostname = true →
        isStrVal (hostValOf a) = false →
        matches_filter a f = Except.error PyExc.attributeError) := by
  refine ⟨fun a f hs hh => ?_, fun a f hv => ?_, fun a f hn hm => ?_,
    fun a f hsm hprod hhost hnostr => ?_⟩
  · have hok : ∃ r, severity_check a f = Except.ok r := by
      unfold severity_check
      rcases f.severity_min with _ | m
      · exact ⟨_, rfl⟩
      · rcases hsev : a.severity with _ | _ | n | s
        · exact ⟨_, rfl⟩
        · exact absurd hsev hs
        · exact ⟨_, rfl⟩
        · simp only [pyIntSev]
          rcases pyIntStr s with _ | v
          · exact ⟨_, rfl⟩
          · exact ⟨_, rfl⟩
    have hhost : ∃ b, hostname_check a f = Except.ok b := by
      rcases hh with hh | hh
      · refine ⟨true, ?_⟩
        unfold hostname_check
        rw [if_neg (by simp [hh])]
      · rcases hsv : hostValOf a with _ | _ | n | s
        · rw [hsv] at hh; exact absurd hh (by simp [isStrVal])
        · rw [hsv] at hh; exact absurd hh (by simp [isStrVal])
        · rw [hsv] at hh; exact absurd hh (by simp [isStrVal])
        · unfold hostname_check
          rw [hsv]
          by_cases ht : truthyO f.hostname = true
          · rw [if_pos ht]; exact ⟨_, rfl⟩
          · rw [if_neg ht]; exact ⟨_, rfl⟩
    rcases hok with ⟨r, hr⟩
    unfold matches_filter
    rw [hr]
    rcases r with _ | _
    · rfl
    · exact matches_rest_isOk a f hhost
  · have hsc : severity_check a f = Except.ok true := by
      unfold severity_check
      rcases f.severity_min with _ | m
      · rfl
      · rw [hv]
    have hsc2 : severity_check a { f with severity_min := Option.none } = Except.ok true := rfl
    unfold matches_filter
    rw [hsc, hsc2]
    rfl
  · rcases hsm : f.severity_min with _ | m
    · rw [hsm] at hm
      simp at hm
    · have hsc : severity_check a f = Except.error PyExc.typeError := by
        unfold severity_check
        rw [hsm, hn]
        rfl
      unfold matches_filter
      rw [hsc]
  · have hsc : severity_check a f = Except.ok true := by
      unfold severity_check
      rw [hsm]
    have hhc : hostname_check a f = Except.error PyExc.attributeError := by
      unfold hostname_check
      rw [if_pos hhost]
      rcases hsv : hostValOf a with _ | _ | n | s
      · rfl
      · rfl
      · rfl
      · rw [hsv] at hnostr
        exact absurd hnostr (by simp [isStrVal])
    unfold matches_filter
    rw [hsc]
    show matches_rest a f = Except.error PyExc.attributeError
    unfold matches_rest
    rw [if_neg (by rw [hprod]; simp)]
    rw [hhc]

/-- A record whose device hostname slot holds JSON `null`. -/
def recNullHost : Alert := { device := Option.some { hostname := SevVal.vnull } }

/-- C3 witness: concrete uses of each amended conjunct. -/
theorem C3_amended_fail_open_witness :
    (matches_filter recC8 { severity_min := Option.some 50 }).isOk = true
    ∧ matches_filter { severity := SevVal.vstr "high" } { severity_min := Option.some 50 }
        = matches_filter { severity := SevVal.vstr "high" } {}
    ∧ matches_filter recNullSev { severity_min := Option.some 50 }
        = Except.error PyExc.typeError
    ∧ matches_filter recNullHost { hostname := Option.some "web" }
        = Except.error PyExc.attributeError := by
  refine ⟨C3_amended_fail_open.1 recC8 _ (by decide) (Or.inr (by decide)),
    ?_, C3_amended_fail_open.2.2.1 recNullSev _ (by decide) (by decide),
    C3_amended_fail_open.2.2.2 recNullHost { hostname := Option.some "web" }
      (by decide) (by decide) (by decide) (by decide)⟩
  exact C3_amended_fail_open.2.1 { severity := SevVal.vstr "high" }
    { severity_min := Option.some 50 } (by decide)

/-! ## C2: storage failure during upsert -/

/-- A record accepted by the empty filter, used to drive a poll
iteration into the store. -/
def alertC2 : Alert :=
  { composite_id := Option.some "cid:ind:9"
    created_timestamp := Option.some "2025-01-01T00:00:00Z" }

/-- C2 counterexample: the claim says a storage failure during a single
upsert never terminates the watch session, but when `store_alert`
raises while processing an accepted record, the exception is not a
`RequestException`, escapes the per-iteration handler, and the
session-level `except Exception` handler logs it and returns — the
session ends instead of continuing to poll. -/
theorem C2_counterexample :
    iterationOutcome (watchIterG {} (fun _ => true) failingStore (fun _ => [alertC2])
      { since := "2024-12-31T00:00:00Z" } ["cid:ind:9"])
      = WatchOutcome.sessionEnd true := by decide

/-- C2 amended: a storage failure during an upsert is not caught by the
per-iteration `RequestException` handler; it reaches the session-level
generic handler, which logs the error and terminates the watch session
(returning to the menu) — unlike a transport error, which backs off
and keeps polling. -/
theorem C2_amended_store_failure_ends_session :
    watchExcOutcome PyExc.storageError = WatchOutcome.sessionEnd true
    ∧ innerExcHandler PyExc.storageError = Option.none
    ∧ watchExcOutcome PyExc.requestException = WatchOutcome.backoffContinue := by
  decide

/-! ## C4: dedup idempotence of the store -/

/-- C4: upserting the same `(record, display_id, full_id)` twice leaves
the table of the first upsert unchanged, the second call reports
`was_new = false`, and after the first call exactly one row carries the
display id and exactly one row carries the full id. -/
theorem C4_upsert_idempotent (t : Table) (a : Alert) (sid fid : String) :
    (store_alert (store_alert t a sid fid).2 a sid fid).1 = false
    ∧ (store_alert (store_alert t a sid fid).2 a sid fid).2 = (store_alert t a sid fid).2
    ∧ (store_alert t a sid fid).2.countP (fun r => r.id == sid) = 1
    ∧ (store_alert t a sid fid).2.countP (fun r => r.full_id == fid) = 1 := by
  have hz1 : (t.filter (fun r => r.id ≠ sid && r.full_id ≠ fid)).countP
      (fun r => r.id == sid) = 0 := by
    rw [List.countP_eq_zero]
    intro r hr
    have hp := (List.mem_filter.mp hr).2
    simp only [Bool.and_eq_true, decide_eq_true_eq] at hp
    simp [hp.1]
  have hz2 : (t.filter (fun r => r.id ≠ sid && r.full_id ≠ fid)).countP
      (fun r => r.full_id == fid) = 0 := by
    rw [List.countP_eq_zero]
    intro r hr
    have hp := (List.mem_filter.mp hr).2
    simp only [Bool.and_eq_true, decide_eq_true_eq] at hp
    simp [hp.2]
  refine ⟨?_, ?_, ?_, ?_⟩
  · simp [store_alert, mkRow]
  · simp only [store_alert, List.filter_append, List.filter_filter]
    have hone : List.filter (fun r => (r.id ≠ sid && r.full_id ≠ fid)
        && (r.id ≠ sid && r.full_id ≠ fid)) t
        = List.filter (fun r => r.id ≠ sid && r.full_id ≠ fid) t := by
      apply List.filter_congr
      intro x _
      exact Bool.and_self _
    rw [hone]
    simp [mkRow]
  · simp only [store_alert, List.countP_append]
    rw [hz1]
    simp [mkRow]
  · simp only [store_alert, List.countP_append]
    rw [hz2]
    simp [mkRow]

/-! ## C10: display-id collision with a fresh full id -/

/-- C10: when a row with the display id exists but the incoming full id
is fresh, `store_alert` reports the record as new (`True`) even though
the existing row is replaced rather than added: the row count is
unchanged and the table still holds exactly one row with that display
id. -/
theorem C10_short_id_collision (t : Table) (a : Alert) (sid fid : String)
    (h1 : t.countP (fun r => r.id == sid) = 1)
    (h2 : ∀ r ∈ t, r.full_id ≠ fid) :
    (store_alert t a sid fid).1 = true
    ∧ (store_alert t a sid fid).2.length = t.length
    ∧ (store_alert t a sid fid).2.countP (fun r => r.id == sid) = 1 := by
  have hfilter : t.filter (fun r => r.id ≠ sid && r.full_id ≠ fid)
      = t.filter (fun r => !(r.id == sid)) := by
    apply List.filter_congr
    intro x hx
    have hx2 := h2 x hx
    by_cases hxx : x.id = sid <;> simp [hxx, hx2]
  have hlen : (t.filter (fun r => !(r.id == sid))).length
      = t.countP (fun r => !(r.id == sid)) := by
    rw [List.countP_eq_length_filter]
  have hsplit := List.length_eq_countP_add_countP (fun r : Row => r.id == sid) t
  have hnotc : t.countP (fun r => decide ¬(r.id == sid) = true)
      = t.countP (fun r => !(r.id == sid)) := by
    apply List.countP_congr
    intro x _
    simp
  refine ⟨?_, ?_, ?_⟩
  · have hany : t.any (fun r => r.full_id == fid) = false := by
      rw [List.any_eq_false]
      intro r hr
      simpa using h2 r hr
    simp [store_alert, hany]
  · simp only [store_alert, List.length_append, hfilter, hlen]
    simp only [hnotc] at hsplit
    simp only [List.length_cons, List.length_nil]
    omega
  · simp only [store_alert, List.countP_append, hfilter]
    have hz : (t.filter (fun r => !(r.id == sid))).countP (fun r => r.id == sid) = 0 := by
      rw [List.countP_eq_zero]
      intro r hr
      have hp := (List.mem_filter.mp hr).2
      simp only [Bool.not_eq_true'] at hp
      simp [hp]
    rw [hz]
    simp [mkRow]

/-- C10 witness: a one-row table with display id "ind:1"; storing a
record under the same display id but fresh full id "cid:ind:2". -/
theorem C10_short_id_collision_witness :
    (store_alert [mkRow {} "ind:1" "cid:ind:1"] {} "ind:1" "cid:ind:2").1 = true
    ∧ (store_alert [mkRow {} "ind:1" "cid:ind:1"] {} "ind:1" "cid:ind:2").2.length
        = ([mkRow {} "ind:1" "cid:ind:1"] : Table).length
    ∧ (store_alert [mkRow {} "ind:1" "cid:ind:1"] {} "ind:1" "cid:ind:2").2.countP
        (fun r => r.id == "ind:1") = 1 :=
  C10_short_id_collision [mkRow {} "ind:1" "cid:ind:1"] {} "ind:1" "cid:ind:2"
    (by decide) (by decide)

/-! ## C5: display-id derivation and the id cache -/

/-- A lookup skips a head entry with a different key. -/
theorem lookup_cons_ne (k : String) (p : String × String) (es : List (String × String))
    (hne : (k == p.1) = false) : List.lookup k (p :: es) = List.lookup k es := by
  rcases p with ⟨a, c⟩
  simp only [List.lookup]
  rw [hne]

/-- Lookup in the overwrite branch of a Python dict assignment. -/
theorem lookup_map_set (k v : String) :
    ∀ c : List (String × String), c.any (fun p => p.1 == k) = true →
      (c.map (fun p => if p.1 == k then (k, v) else p)).lookup k = Option.some v := by
  intro c
  induction c with
  | nil => intro h; simp at h
  | cons p rest ih =>
    intro h
    by_cases hp : p.1 = k
    · simp [hp]
    · have hr : rest.any (fun p => p.1 == k) = true := by
        simp only [List.any_cons, Bool.or_eq_true] at h
        rcases h with h | h
        · exact absurd (by simpa using h) hp
        · exact h
      have hne : (k == p.1) = false := by
        simp [Ne.symm hp]
      have hpb : (p.1 == k) = false := beq_eq_false_iff_ne.mpr hp
      rw [List.map_cons, if_neg (by simp [hpb])]
      rw [lookup_cons_ne k p _ hne]
      exact ih hr

/-- Lookup in the append branch of a Python dict assignment. -/
theorem lookup_append_new (k v : String) :
    ∀ c : List (String × String), c.any (fun p => p.1 == k) = false →
      (c ++ [(k, v)]).lookup k = Option.some v := by
  intro c
  induction c with
  | nil => simp [List.lookup]
  | cons p rest ih =>
    intro h
    simp only [List.any_cons, Bool.or_eq_false_iff] at h
    have hne : (k == p.1) = false := by
      rcases h with ⟨h1, _⟩
      rw [beq_eq_false_iff_ne] at h1 ⊢
      exact fun hk => h1 (hk ▸ rfl)
    simp only [List.cons_append]
    rw [lookup_cons_ne k p _ hne]
    exact ih h.2

/-- Setting a key in the id cache makes lookup of that key return the
value just stored. -/
theorem dictSet_lookup (c : List (String × String)) (k v : String) :
    (dictSet c k v).lookup k = Option.some v := by
  unfold dictSet
  by_cases h : c.any (fun p => p.1 == k) = true
  · rw [if_pos h]
    exact lookup_map_set k v c h
  · rw [if_neg h]
    exact lookup_append_new k v c (Bool.eq_false_iff.mpr h)

/-- One cache write preserves the key-is-derived-form invariant. -/
theorem cacheInv_recordCacheUpdate (c : List (String × String)) (a : Alert)
    (h : cacheOriginalInv c = true) :
    cacheOriginalInv (recordCacheUpdate c a) = true := by
  unfold recordCacheUpdate dictSet
  rw [cacheOriginalInv, List.all_eq_true] at h ⊢
  by_cases hany : c.any (fun p => p.1 == derive_display_id (fullIdOf a)) = true
  · rw [if_pos hany]
    intro x hx
    rcases List.mem_map.mp hx with ⟨p, hp, hx2⟩
    by_cases hk : p.1 = derive_display_id (fullIdOf a)
    · rw [if_pos (by simpa using hk)] at hx2
      rw [← hx2]
      simp
    · rw [if_neg (by simpa using hk)] at hx2
      exact hx2 ▸ h p hp
  · rw [if_neg hany]
    intro x hx
    rcases List.mem_append.mp hx with hx2 | hx2
    · exact h x hx2
    · rcases List.mem_singleton.mp hx2 with rfl
      simp

/-- C5: display-id derivation takes the suffix from the `ind:`/`det:`
marker (`"abc:ind:1234"` to `"ind:1234"`, `"abc:det:5678"` to
`"det:5678"`, a string with neither marker unchanged), and the id cache
always maps the derived display id to the untransformed full id: the
freshly stored value is the original full id, the invariant that every
entry's key is the derived form of its stored full id is preserved over
processing any record list, and each successfully processed record's
cache is exactly this update. -/
theorem C5_display_id_derivation :
    derive_display_id "abc:ind:1234" = "ind:1234"
    ∧ derive_display_id "abc:det:5678" = "det:5678"
    ∧ (∀ s : String, strContainsSub s ":ind:" = false → strContainsSub s ":det:" = false →
        derive_display_id s = s)
    ∧ (∀ (c : List (String × String)) (a : Alert),
        (recordCacheUpdate c a).lookup (derive_display_id (fullIdOf a))
          = Option.some (fullIdOf a))
    ∧ (∀ (c : List (String × String)) (l : List Alert), cacheOriginalInv c = true →
        cacheOriginalInv (l.foldl recordCacheUpdate c) = true) := by
  refine ⟨by decide, by decide, fun s h1 h2 => ?_, fun c a => dictSet_lookup c _ _, ?_⟩
  · unfold derive_display_id
    rw [h1, h2]
    simp
  · intro c l
    induction l generalizing c with
    | nil => intro h; simpa using h
    | cons a rest ih =>
      intro h
      exact ih _ (cacheInv_recordCacheUpdate c a h)

/-- C5 witness: a markerless id is unchanged and the invariant holds on
a cache built from scratch. -/
theorem C5_display_id_derivation_witness :
    derive_display_id "plain-identifier" = "plain-identifier"
    ∧ cacheOriginalInv ([alertC2].foldl recordCacheUpdate []) = true := by
  exact ⟨C5_display_id_derivation.2.2.1 "plain-identifier" (by decide) (by decide),
    C5_display_id_derivation.2.2.2.2 [] [alertC2] (by decide)⟩

/-! ## C6: chunked bulk fetch -/

/-- Every chunk produced by the 500-slicing has at most 500 elements. -/
theorem chunksGo_length_le (fuel : Nat) :
    ∀ (xs : List String) (c : List String), c ∈ chunksGo fuel xs → c.length ≤ 500 := by
  induction fuel with
  | zero => intro xs c hc; simp [chunksGo] at hc
  | succ f ih =>
    intro xs c hc
    match xs with
    | [] => simp [chunksGo] at hc
    | x :: rest =>
      rw [chunksGo] at hc
      rcases List.mem_cons.mp hc with rfl | hmem
      · simp only [List.length_take]
        exact Nat.min_le_left _ _
      · exact ih _ c hmem

/-- With enough fuel, concatenating the chunks recovers the input. -/
theorem chunksGo_flatten (fuel : Nat) :
    ∀ xs : List String, xs.length ≤ fuel → (chunksGo fuel xs).flatten = xs := by
  induction fuel with
  | zero =>
    intro xs h
    rw [Nat.le_zero, List.length_eq_zero] at h
    subst h
    rfl
  | succ f ih =>
    intro xs h
    match xs with
    | [] => rfl
    | x :: rest =>
      rw [chunksGo, List.flatten_cons]
      rw [ih ((x :: rest).drop 500) (by simp at h ⊢; omega)]
      exact List.take_append_drop 500 (x :: rest)

/-- Under a well-behaved server, the chunk loop succeeds, concatenates
the per-chunk resources in order, and issues one request per chunk. -/
theorem fetchAlertsAux_ok (net : FetchNet) (hok : OkNet net) :
    ∀ (cs : List (List String)) (out : List Alert) (n : Nat),
      fetchAlertsAux net cs out n
        = (Except.ok (out ++ (cs.map (fun c => (net c).1.resources)).flatten), n + cs.length) := by
  intro cs
  induction cs with
  | nil => intro out n; simp [fetchAlertsAux]
  | cons c rest ih =>
    intro out n
    have hchunk : fetchOneChunk net c = (Except.ok (net c).1.resources, 1) := by
      unfold fetchOneChunk
      rw [if_neg (by rw [hok c]; omega)]
      unfold raiseForStatus
      rw [if_neg (by rw [hok c]; omega)]
    rw [fetchAlertsAux, hchunk]
    simp only []
    rw [ih]
    simp only [List.map_cons, List.flatten_cons, List.append_assoc, List.length_cons,
      Prod.mk.injEq]
    refine ⟨by simp, by omega⟩

set_option maxRecDepth 8000 in
/-- C6: `fetch_alerts` splits its input into chunks of at most 500 ids;
an input of 1200 ids yields exactly the chunk sizes 500, 500, 200 and
issues exactly 3 requests; the result concatenates the per-chunk
responses preserving chunk order (and the chunks concatenate back to
the input in order); an empty input returns an empty result with zero
requests. -/
theorem C6_fetch_chunking (net : FetchNet) (hok : OkNet net) :
    (chunks500 (List.replicate 1200 "id")).map List.length = [500, 500, 200]
    ∧ (fetch_alerts net (List.replicate 1200 "id")).2 = 3
    ∧ (∀ ids : List String,
        fetch_alerts net ids
          = (Except.ok ((chunks500 ids).map (fun c => (net c).1.resources)).flatten,
             (chunks500 ids).length))
    ∧ (∀ ids : List String, ∀ c ∈ chunks500 ids, c.length ≤ 500)
    ∧ (∀ ids : List String, (chunks500 ids).flatten = ids)
    ∧ fetch_alerts net [] = (Except.ok [], 0) := by
  have hgen : ∀ ids : List String,
      fetch_alerts net ids
        = (Except.ok ((chunks500 ids).map (fun c => (net c).1.resources)).flatten,
           (chunks500 ids).length) := by
    intro ids
    match hids : ids with
    | [] => rfl
    | x :: rest =>
      unfold fetch_alerts
      rw [if_neg (by simp)]
      rw [fetchAlertsAux_ok net hok]
      simp
  refine ⟨by decide, ?_, hgen, fun ids c hc => chunksGo_length_le _ ids c hc,
    fun ids => chunksGo_flatten _ ids (Nat.le_refl _), rfl⟩
  · rw [hgen]
    show (chunks500 (List.replicate 1200 "id")).length = 3
    decide

/-- C6 witness: a concrete never-rate-limiting server. -/
theorem C6_fetch_chunking_witness :
    (fetch_alerts (fun _ => ({ code := 200 }, { code := 200 })) [] = (Except.ok [], 0))
    ∧ (chunks500 (List.replicate 1200 "id")).map List.length = [500, 500, 200] :=
  ⟨(C6_fetch_chunking (fun _ => ({ code := 200 }, { code := 200 }))
      (fun _ => rfl)).2.2.2.2.2,
   (C6_fetch_chunking (fun _ => ({ code := 200 }, { code := 200 }))
      (fun _ => rfl)).1⟩

/-! ## C7: rate-limit retry in the paginated id query -/

/-- C7: a 429 response sleeps for the Retry-After value (2 when the
header is absent, never 0), reissues the same request without
advancing: the offset trace gains one entry equal to the repeated
offset and the result is identical to the run without the 429; hence
the downstream watch step — and with it `since_instant` and
`seen_ids` — is unchanged by the 429. -/
theorem C7_rate_limit_retry :
    retrySleepSecs Option.none = Except.ok 2
    ∧ retrySleepSecs (Option.some "0") = Except.ok 2
    ∧ retrySleepSecs (Option.some "3") = Except.ok 3
    ∧ (∀ (h : Option String) (n : Int), retrySleepSecs h = Except.ok n → n ≠ 0)
    ∧ (∀ (ra : Option String) (secs : Int) (rest : List QResp) (off : Int)
        (acc : List String), retrySleepSecs ra = Except.ok secs →
        queryLoop (QResp.rateLimited ra :: rest) off acc
          = { result := (queryLoop rest off acc).result,
              offsetsUsed := off :: (queryLoop rest off acc).offsetsUsed,
              sleeps := secs :: (queryLoop rest off acc).sleeps })
    ∧ (∀ (r : QResp) (rest : List QResp) (off : Int) (acc : List String),
        (queryLoop (r :: rest) off acc).offsetsUsed.head? = Option.some off)
    ∧ (∀ (fil : AlertFilter) (pOk : String → Bool) (fetch : List String → List Alert)
        (st : WatchState) (ra : Option String) (secs : Int) (rest : List QResp),
        retrySleepSecs ra = Except.ok secs →
        stepWithQuery fil pOk fetch st (query_alert_ids (QResp.rateLimited ra :: rest)).result
          = stepWithQuery fil pOk fetch st (query_alert_ids rest).result) := by
  have hcons : ∀ (ra : Option String) (secs : Int) (rest : List QResp) (off : Int)
      (acc : List String), retrySleepSecs ra = Except.ok secs →
      queryLoop (QResp.rateLimited ra :: rest) off acc
        = { result := (queryLoop rest off acc).result,
            offsetsUsed := off :: (queryLoop rest off acc).offsetsUsed,
            sleeps := secs :: (queryLoop rest off acc).sleeps } := by
    intro ra secs rest off acc h
    rw [queryLoop, h]
  refine ⟨by decide, by decide, by decide, ?_, hcons, ?_, ?_⟩
  · intro h n hok
    unfold retrySleepSecs at hok
    rcases hv : pyIntStr (h.getD "2") with _ | v
    · rw [hv] at hok
      exact absurd hok (by simp)
    · rw [hv] at hok
      simp only [Except.ok.injEq] at hok
      by_cases hz : v = 0
      · rw [if_pos hz] at hok
        omega
      · rw [if_neg hz] at hok
        omega
  · intro r rest off acc
    cases r with
    | rateLimited ra =>
      rw [queryLoop]
      rcases retrySleepSecs ra with e | secs <;> rfl
    | okPage res moff mlim mtot =>
      rw [queryLoop]
      split <;> rfl
    | httpError code => rfl
  · intro fil pOk fetch st ra secs rest h
    unfold query_alert_ids
    rw [hcons ra secs rest 0 [] h]

/-- C7 witness: a concrete 429 with Retry-After 3 followed by a
successful single page. -/
theorem C7_rate_limit_retry_witness :
    retrySleepSecs (Option.some "3") ≠ Except.ok 0
    ∧ queryLoop [QResp.rateLimited (Option.some "3"),
        QResp.okPage ["a"] (Option.some 0) (Option.some 1) (Option.some 1)] 0 []
        = { result := (queryLoop [QResp.okPage ["a"] (Option.some 0) (Option.some 1)
              (Option.some 1)] 0 []).result,
            offsetsUsed := 0 :: (queryLoop [QResp.okPage ["a"] (Option.some 0)
              (Option.some 1) (Option.some 1)] 0 []).offsetsUsed,
            sleeps := 3 :: (queryLoop [QResp.okPage ["a"] (Option.some 0) (Option.some 1)
              (Option.some 1)] 0 []).sleeps } :=
  ⟨fun hk => C7_rate_limit_retry.2.2.2.1 (Option.some "3") 0 hk rfl,
   C7_rate_limit_retry.2.2.2.2.1 (Option.some "3") 3
     [QResp.okPage ["a"] (Option.some 0) (Option.some 1) (Option.some 1)] 0 []
     (by decide)⟩

/-! ## C9: JSON export round-trip -/

/-- SQLite text ordering is total. -/
theorem sqliteLE_total (u v : Option String) : sqliteLE u v = true ∨ sqliteLE v u = true := by
  rcases u with _ | a <;> rcases v with _ | b
  · left; rfl
  · left; rfl
  · right; rfl
  · simp only [sqliteLE, decide_eq_true_eq]
    exact le_total a b

/-- SQLite text ordering is transitive. -/
theorem sqliteLE_trans {u v w : Option String}
    (h1 : sqliteLE u v = true) (h2 : sqliteLE v w = true) : sqliteLE u w = true := by
  rcases u with _ | a
  · rfl
  · rcases v with _ | b
    · exact absurd h1 (by simp [sqliteLE])
    · rcases w with _ | c
      · exact absurd h2 (by simp [sqliteLE])
      · simp only [sqliteLE, decide_eq_true_eq] at h1 h2 ⊢
        exact le_trans h1 h2

instance : IsTotal Row rowDescRel :=
  ⟨fun x y => (sqliteLE_total y.created_timestamp x.created_timestamp).elim Or.inl Or.inr⟩

instance : IsTrans Row rowDescRel :=
  ⟨fun _ _ _ h1 h2 => sqliteLE_trans h2 h1⟩

/-- Descending creation order on exported records. -/
def alertDescRel (a b : Alert) : Prop :=
  sqliteLE b.created_timestamp a.created_timestamp = true

/-- Storing a batch whose display ids and full ids are fresh and
pairwise distinct appends one row per record, in order. -/
theorem storeAll_fresh :
    ∀ (items : List (Alert × String × String)) (t : Table),
      (∀ p ∈ items, ∀ r ∈ t, r.id ≠ p.2.1 ∧ r.full_id ≠ p.2.2) →
      (items.map (fun p => p.2.1)).Nodup →
      (items.map (fun p => p.2.2)).Nodup →
      storeAll t items = t ++ items.map (fun p => mkRow p.1 p.2.1 p.2.2) := by
  intro items
  induction items with
  | nil => intro t _ _ _; simp [storeAll]
  | cons p rest ih =>
    intro t hfresh hs hf
    have hstep : (store_alert t p.1 p.2.1 p.2.2).2 = t ++ [mkRow p.1 p.2.1 p.2.2] := by
      unfold store_alert
      have hkeep : t.filter (fun r => r.id ≠ p.2.1 && r.full_id ≠ p.2.2) = t := by
        apply List.filter_eq_self.mpr
        intro r hr
        have hfr := hfresh p (List.mem_cons_self p rest) r hr
        simp [hfr.1, hfr.2]
      rw [hkeep]
    have hunfold : storeAll t (p :: rest)
        = storeAll (store_alert t p.1 p.2.1 p.2.2).2 rest := rfl
    rw [hunfold, hstep]
    rw [List.map_cons] at hs hf
    have hfresh2 : ∀ q ∈ rest, ∀ r ∈ t ++ [mkRow p.1 p.2.1 p.2.2],
        r.id ≠ q.2.1 ∧ r.full_id ≠ q.2.2 := by
      intro q hq r hr
      rcases List.mem_append.mp hr with hr2 | hr2
      · exact hfresh q (List.mem_cons_of_mem p hq) r hr2
      · rcases List.mem_singleton.mp hr2 with rfl
        constructor
        · show p.2.1 ≠ q.2.1
          intro he
          exact (List.nodup_cons.mp hs).1 (he ▸ List.mem_map_of_mem (fun p => p.2.1) hq)
        · show p.2.2 ≠ q.2.2
          intro he
          exact (List.nodup_cons.mp hf).1 (he ▸ List.mem_map_of_mem (fun p => p.2.2) hq)
    rw [ih _ hfresh2 (List.nodup_cons.mp hs).2 (List.nodup_cons.mp hf).2]
    simp [List.append_assoc]

/-- C9: exporting the table built by storing a batch of records with
distinct display ids and distinct full ids returns the batch size as
its count, the exported array is exactly the original records (a
permutation, each record field-for-field the one stored), and the
array is ordered descending by creation timestamp. -/
theorem C9_export_round_trip (items : List (Alert × String × String))
    (hs : (items.map (fun p => p.2.1)).Nodup)
    (hf : (items.map (fun p => p.2.2)).Nodup) :
    (export_alerts_json (storeAll [] items)).2 = items.length
    ∧ (export_alerts_json (storeAll [] items)).1.Perm (items.map (fun p => p.1))
    ∧ List.Sorted alertDescRel (export_alerts_json (storeAll [] items)).1 := by
  have htab : storeAll [] items = items.map (fun p => mkRow p.1 p.2.1 p.2.2) :=
    storeAll_fresh items [] (fun p _ r hr => absurd hr (List.not_mem_nil r)) hs hf
  have hperm : (List.insertionSort rowDescRel (storeAll [] items)).Perm (storeAll [] items) :=
    List.perm_insertionSort rowDescRel _
  refine ⟨?_, ?_, ?_⟩
  · show (List.map Row.raw (List.insertionSort rowDescRel (storeAll [] items))).length
      = items.length
    rw [List.length_map, hperm.length_eq, htab, List.length_map]
  · show (List.map Row.raw (List.insertionSort rowDescRel (storeAll [] items))).Perm
      (items.map (fun p => p.1))
    have h1 := hperm.map Row.raw
    rw [htab, List.map_map] at h1
    have hfun : (Row.raw ∘ fun p : Alert × String × String => mkRow p.1 p.2.1 p.2.2)
        = (fun p : Alert × String × String => p.1) := funext fun p => rfl
    rw [hfun] at h1
    rw [htab]
    exact h1
  · show List.Sorted alertDescRel
      (List.map Row.raw (List.insertionSort rowDescRel (storeAll [] items)))
    have hsorted : List.Sorted rowDescRel (List.insertionSort rowDescRel (storeAll [] items)) :=
      List.sorted_insertionSort rowDescRel _
    have hmemprop : ∀ r ∈ List.insertionSort rowDescRel (storeAll [] items),
        r.created_timestamp = r.raw.created_timestamp := by
      intro r hr
      have hr2 : r ∈ storeAll [] items := hperm.subset hr
      rw [htab] at hr2
      rcases List.mem_map.mp hr2 with ⟨p, _, rfl⟩
      rfl
    rw [List.Sorted, List.pairwise_map]
    refine List.Pairwise.imp_of_mem ?_ hsorted
    intro r1 r2 h1 h2 hrel
    unfold alertDescRel
    rw [← hmemprop r1 h1, ← hmemprop r2 h2]
    exact hrel

/-- C9 witness: two concrete records with distinct ids. -/
theorem C9_export_round_trip_witness :
    (export_alerts_json (storeAll []
        [(alertC2, "ind:9", "cid:ind:9"), ({}, "ind:8", "cid:ind:8")])).2 = 2
    ∧ (export_alerts_json (storeAll []
        [(alertC2, "ind:9", "cid:ind:9"), ({}, "ind:8", "cid:ind:8")])).1.Perm
        ([(alertC2, "ind:9", "cid:ind:9"), (({} : Alert), "ind:8", "cid:ind:8")].map
          (fun p => p.1))
    ∧ List.Sorted alertDescRel (export_alerts_json (storeAll []
        [(alertC2, "ind:9", "cid:ind:9"), ({}, "ind:8", "cid:ind:8")])).1 :=
  C9_export_round_trip [(alertC2, "ind:9", "cid:ind:9"), ({}, "ind:8", "cid:ind:8")]
    (by decide) (by decide)

/-! ## C1: watermark monotonicity -/

/-- A value produced by the max fold is the start value or a list
element. -/
theorem foldl_maxStep_eq_some :
    ∀ (l : List String) (m : Option String) (c : String),
      l.foldl maxStep m = Option.some c → m = Option.some c ∨ c ∈ l := by
  intro l
  induction l with
  | nil => intro m c h; exact Or.inl h
  | cons k rest ih =>
    intro m c h
    rw [List.foldl_cons] at h
    rcases ih (maxStep m k) c h with h2 | h2
    · rcases hm : m with _ | mv
      · rw [hm] at h2
        simp only [maxStep, Option.some.injEq] at h2
        exact Or.inr (h2 ▸ List.mem_cons_self k rest)
      · rw [hm] at h2
        simp only [maxStep] at h2
        by_cases hlt : mv < k
        · rw [if_pos hlt] at h2
          simp only [Option.some.injEq] at h2
          exact Or.inr (h2 ▸ List.mem_cons_self k rest)
        · rw [if_neg hlt] at h2
          exact Or.inl h2
    · exact Or.inr (List.mem_cons_of_mem k h2)

/-- Everything folded into the max is bounded by it. -/
theorem foldl_maxStep_ge :
    ∀ (l : List String) (m : Option String) (c : String),
      l.foldl maxStep m = Option.some c →
      (∀ k ∈ l, k ≤ c) ∧ (∀ mv, m = Option.some mv → mv ≤ c) := by
  intro l
  induction l with
  | nil =>
    intro m c h
    exact ⟨fun k hk => absurd hk (List.not_mem_nil k),
      fun mv hmv => by rw [hmv] at h; exact le_of_eq (Option.some.inj h)⟩
  | cons k rest ih =>
    intro m c h
    rw [List.foldl_cons] at h
    have ih2 := ih (maxStep m k) c h
    have hk_le : k ≤ c := by
      rcases hm : m with _ | mv
      · exact ih2.2 k (by rw [hm]; rfl)
      · by_cases hlt : mv < k
        · exact ih2.2 k (by rw [hm]; simp only [maxStep]; rw [if_pos hlt])
        · have hmv_le : mv ≤ c :=
            ih2.2 mv (by rw [hm]; simp only [maxStep]; rw [if_neg hlt])
          exact le_trans (not_lt.mp hlt) hmv_le
    refine ⟨fun x hx => ?_, fun mv hmv => ?_⟩
    · rcases List.mem_cons.mp hx with rfl | hx2
      · exact hk_le
      · exact ih2.1 x hx2
    · rcases hm : m with _ | mv2
      · rw [hm] at hmv; exact absurd hmv (by simp)
      · rw [hm] at hmv
        rw [← Option.some.inj hmv]
        by_cases hlt : mv2 < k
        · exact le_trans (le_of_lt hlt) hk_le
        · exact ih2.2 mv2 (by rw [hm]; simp only [maxStep]; rw [if_neg hlt])

/-- The max fold of a `some` start stays `some`. -/
theorem foldl_maxStep_isSome_of_start :
    ∀ (l : List String) (m : Option String), m.isSome →
      (l.foldl maxStep m).isSome := by
  intro l
  induction l with
  | nil => intro m hm; exact hm
  | cons k rest ih =>
    intro m _
    rw [List.foldl_cons]
    apply ih
    rcases m with _ | mv
    · rfl
    · simp only [maxStep]
      by_cases hlt : mv < k
      · rw [if_pos hlt]; rfl
      · rw [if_neg hlt]; rfl

/-- The max fold of a nonempty list is `some`. -/
theorem foldl_maxStep_isSome :
    ∀ (l : List String) (m : Option String), l ≠ [] →
      (l.foldl maxStep m).isSome := by
  intro l
  match l with
  | [] => intro m h; exact absurd rfl h
  | k :: rest =>
    intro m _
    rw [List.foldl_cons]
    apply foldl_maxStep_isSome_of_start
    rcases m with _ | mv
    · rfl
    · simp only [maxStep]
      by_cases hlt : mv < k
      · rw [if_pos hlt]; rfl
      · rw [if_neg hlt]; rfl

/-- Accepted-key lists distribute over append. -/
theorem truthyKeys_append (l1 l2 : List Alert) :
    truthyKeys (l1 ++ l2) = truthyKeys l1 ++ truthyKeys l2 := by
  unfold truthyKeys
  exact List.filterMap_append l1 l2 _

/-- Every accepted key is a nonempty string. -/
theorem truthyKeys_ne_empty (l : List Alert) : ∀ k ∈ truthyKeys l, k ≠ "" := by
  intro k hk
  rcases List.mem_filterMap.mp hk with ⟨a, _, ha⟩
  by_cases htr : truthyO (pick_created_iso a) = true
  · rw [if_pos htr] at ha
    rcases Option.some.inj ha with rfl
    rcases hp : pick_created_iso a with _ | s
    · rw [hp] at htr; exact absurd htr (by simp [truthyO])
    · rw [hp] at htr
      simp only [truthyO, decide_eq_true_eq] at htr
      simpa [keyOf, hp] using htr
  · rw [if_neg htr] at ha
    exact absurd ha (by simp)

/-- What one record does to the iteration accumulator: the watch-state
`since` field is untouched, and either the record was skipped (nothing
emitted, mark unchanged) or it was accepted (appended to the emitted
list, mark folded with its key when the key is truthy). -/
theorem processOneG_step (fil : AlertFilter) (pOk : String → Bool) (storeF : StoreFun)
    (acc : IterAcc) (a : Alert) (acc2 : IterAcc)
    (h : processOneG fil pOk storeF acc a = Except.ok acc2) :
    acc2.st.since = acc.st.since
    ∧ ((acc2.emitted = acc.emitted ∧ acc2.maxCreated = acc.maxCreated)
      ∨ (acc2.emitted = acc.emitted ++ [a]
        ∧ acc2.maxCreated =
          (if truthyO (pick_created_iso a) then maxStep acc.maxCreated (keyOf a)
           else acc.maxCreated))) := by
  simp only [processOneG] at h
  split at h
  · rcases Except.ok.inj h with rfl
    exact ⟨rfl, Or.inl ⟨rfl, rfl⟩⟩
  · split at h
    · exact absurd h (by simp)
    · rcases Except.ok.inj h with rfl
      exact ⟨rfl, Or.inl ⟨rfl, rfl⟩⟩
    · split at h
      · exact absurd h (by simp)
      · split at h
        · exact absurd h (by simp)
        · rcases Except.ok.inj h with rfl
          refine ⟨rfl, Or.inr ⟨rfl, ?_⟩⟩
          by_cases htr : truthyO (pick_created_iso a) = true
          · rw [if_pos htr, if_pos htr]
            rcases hmc : acc.maxCreated with _ | mv
            · rfl
            · simp only [maxStep]
              by_cases hlt : mv < keyOf a
              · rw [if_pos hlt,
                  if_pos (show mv < (pick_created_iso a).getD "" from hlt)]
                rfl
              · rw [if_neg hlt,
                  if_neg (show ¬mv < (pick_created_iso a).getD "" from hlt)]
          · rw [if_neg htr, if_neg htr]

/-- Invariant preservation along the per-alert fold of one iteration. -/
theorem processList_inv (fil : AlertFilter) (pOk : String → Bool) (storeF : StoreFun)
    (P : IterAcc → Prop) :
    ∀ (l : List Alert) (acc acc2 : IterAcc),
      (∀ b x b2, x ∈ l → processOneG fil pOk storeF b x = Except.ok b2 → P b → P b2) →
      List.foldlM (processOneG fil pOk storeF) acc l = Except.ok acc2 → P acc → P acc2 := by
  intro l
  induction l with
  | nil =>
    intro acc acc2 _ h hP
    have h2 : acc = acc2 := Except.ok.inj h
    exact h2 ▸ hP
  | cons x rest ih =>
    intro acc acc2 hstep h hP
    rw [List.foldlM_cons] at h
    rcases hx : processOneG fil pOk storeF acc x with e | b2
    · rw [hx] at h
      exact Except.noConfusion
        (h : (Except.error e : Except PyExc IterAcc) = Except.ok acc2)
    · rw [hx] at h
      exact ih b2 acc2
        (fun b y b3 hy => hstep b y b3 (List.mem_cons_of_mem x hy))
        (h : List.foldlM (processOneG fil pOk storeF) b2 rest = Except.ok acc2)
        (hstep acc x b2 (List.mem_cons_self x rest) hx hP)

/-- In a successful iteration whose fetched records (when they carry a
truthy creation key) are keyed at or after the incoming watermark, the
watermark does not decrease. -/
theorem watchIterG_since (fil : AlertFilter) (pOk : String → Bool) (storeF : StoreFun)
    (fetch : List String → List Alert) (st : WatchState) (ids : List String)
    (st2 : WatchState) (em : List Alert)
    (h : watchIterG fil pOk storeF fetch st ids = Except.ok (st2, em))
    (hkeys : ∀ a ∈ fetch (ids.filter (fun i => !st.seen.contains i)),
      truthyO (pick_created_iso a) = true → st.since ≤ keyOf a) :
    st.since ≤ st2.since := by
  simp only [watchIterG] at h
  split at h
  · rcases Prod.mk.inj (Except.ok.inj h) with ⟨rfl, rfl⟩
    exact le_refl _
  · rcases hfold : List.foldlM (processOneG fil pOk storeF)
        (IterAcc.mk st Option.none [])
        (sortByCreated (fetch (ids.filter (fun i => !st.seen.contains i)))) with e | acc
    · rw [hfold] at h
      exact absurd h (by simp)
    · rw [hfold] at h
      have hP : acc.st.since = st.since
          ∧ ∀ c, acc.maxCreated = Option.some c → st.since ≤ c := by
        refine processList_inv fil pOk storeF
          (fun b => b.st.since = st.since
            ∧ ∀ c, b.maxCreated = Option.some c → st.since ≤ c)
          _ _ acc ?_ hfold ⟨rfl, fun c hc => absurd hc (by simp)⟩
        intro b x b2 hx hstep hPb
        have hs := processOneG_step fil pOk storeF b x b2 hstep
        refine ⟨hs.1.trans hPb.1, ?_⟩
        rcases hs.2 with ⟨_, hmax⟩ | ⟨_, hmax⟩
        · intro c hc
          exact hPb.2 c (hmax ▸ hc)
        · intro c hc
          rw [hmax] at hc
          by_cases htr : truthyO (pick_created_iso x) = true
          · rw [if_pos htr] at hc
            have hxk : st.since ≤ keyOf x := by
              apply hkeys x _ htr
              have := (List.mem_insertionSort
                (fun a b => keyOf a ≤ keyOf b)).mp hx
              exact this
            rcases hmb : b.maxCreated with _ | mv
            · rw [hmb] at hc
              rcases Option.some.inj hc with rfl
              exact hxk
            · rw [hmb] at hc
              simp only [maxStep] at hc
              by_cases hlt : mv < keyOf x
              · rw [if_pos hlt] at hc
                rcases Option.some.inj hc with rfl
                exact hxk
              · rw [if_neg hlt] at hc
                rw [← Option.some.inj hc]
                exact hPb.2 mv hmb
          · rw [if_neg htr] at hc
            exact hPb.2 c hc
      rcases Prod.mk.inj (Except.ok.inj h) with ⟨hst2, _⟩
      by_cases htr : truthyO acc.maxCreated = true
      · rw [if_pos htr] at hst2
        rcases hmc : acc.maxCreated with _ | c
        · rw [hmc] at htr; exact absurd htr (by simp [truthyO])
        · have := hP.2 c hmc
          rw [← hst2]
          simpa [hmc] using this
      · rw [if_neg htr] at hst2
        rw [← hst2]
        exact le_of_eq hP.1.symm

/-- In a successful iteration that accepted records with truthy creation
keys, the outgoing watermark is exactly the largest accepted key: it is
one of the accepted keys and bounds them all. -/
theorem watchIterG_max (fil : AlertFilter) (pOk : String → Bool) (storeF : StoreFun)
    (fetch : List String → List Alert) (st : WatchState) (ids : List String)
    (st2 : WatchState) (em : List Alert)
    (h : watchIterG fil pOk storeF fetch st ids = Except.ok (st2, em))
    (hne : truthyKeys em ≠ []) :
    st2.since ∈ truthyKeys em ∧ ∀ k ∈ truthyKeys em, k ≤ st2.since := by
  simp only [watchIterG] at h
  split at h
  · rcases Prod.mk.inj (Except.ok.inj h) with ⟨rfl, rfl⟩
    exact absurd rfl hne
  · rcases hfold : List.foldlM (processOneG fil pOk storeF)
        (IterAcc.mk st Option.none [])
        (sortByCreated (fetch (ids.filter (fun i => !st.seen.contains i)))) with e | acc
    · rw [hfold] at h
      exact absurd h (by simp)
    · rw [hfold] at h
      have hP : acc.maxCreated = listMaxS (truthyKeys acc.emitted) := by
        refine processList_inv fil pOk storeF
          (fun b => b.maxCreated = listMaxS (truthyKeys b.emitted))
          _ _ acc ?_ hfold rfl
        intro b x b2 _ hstep hPb
        have hs := processOneG_step fil pOk storeF b x b2 hstep
        rcases hs.2 with ⟨hem, hmax⟩ | ⟨hem, hmax⟩
        · rw [hmax, hem]
          exact hPb
        · rw [hmax, hem, truthyKeys_append]
          by_cases htr : truthyO (pick_created_iso x) = true
          · rw [if_pos htr]
            have hsingle : truthyKeys [x] = [keyOf x] := by
              simp [truthyKeys, htr]
            rw [hsingle]
            unfold listMaxS
            rw [List.foldl_append]
            rw [← listMaxS, ← hPb]
            rfl
          · rw [if_neg htr]
            have hsingle : truthyKeys [x] = [] := by
              simp [truthyKeys, htr]
            rw [hsingle, List.append_nil]
            exact hPb
      rcases Prod.mk.inj (Except.ok.inj h) with ⟨hst2, hem⟩
      rw [← hem] at hne
      have hsome : acc.maxCreated.isSome := by
        rw [hP]
        exact foldl_maxStep_isSome _ _ hne
      rcases hmc : acc.maxCreated with _ | c
      · rw [hmc] at hsome; exact absurd hsome (by simp)
      · have hmem : c ∈ truthyKeys acc.emitted := by
          rcases foldl_maxStep_eq_some _ _ _ (hP.symm.trans hmc) with h2 | h2
          · exact absurd h2 (by simp)
          · exact h2
        have hge := foldl_maxStep_ge (truthyKeys acc.emitted) Option.none c
          (hP.symm.trans hmc)
        have hcne : c ≠ "" := truthyKeys_ne_empty acc.emitted c hmem
        have htr : truthyO acc.maxCreated = true := by
          rw [hmc]
          simpa [truthyO] using hcne
        rw [if_pos htr, hmc] at hst2
        rw [← hem, ← hst2]
        exact ⟨hmem, hge.1⟩

/-- Under the spec's synthetic-API assumption, the watermark never
decreases over any sequence of poll iterations. -/
theorem runWatch_mono (fil : AlertFilter) (pOk : String → Bool) :
    ∀ (envs : List Env) (st : WatchState), (∀ e ∈ envs, GoodEnv e) →
      st.since ≤ (runWatch fil pOk envs st).since := by
  intro envs
  induction envs with
  | nil => intro st _; exact le_refl _
  | cons e rest ih =>
    intro st hG
    rw [runWatch]
    rcases hit : watchIter fil pOk e.fetch st (e.query st.since) with exc | p
    · simp only []
      by_cases hexc : exc = PyExc.requestException
      · rw [if_pos hexc]
        exact ih st (fun x hx => hG x (List.mem_cons_of_mem e hx))
      · rw [if_neg hexc]
    · rcases p with ⟨st2, em⟩
      have hkeys : ∀ a ∈ e.fetch ((e.query st.since).filter
          (fun i => !st.seen.contains i)),
          truthyO (pick_created_iso a) = true → st.since ≤ keyOf a :=
        hG e (List.mem_cons_self e rest) st.since _
          (fun x hx => (List.mem_filter.mp hx).1)
      have h1 : st.since ≤ st2.since :=
        watchIterG_since fil pOk okStore e.fetch st _ st2 em hit hkeys
      exact le_trans h1 (ih st2 (fun x hx => hG x (List.mem_cons_of_mem e hx)))

/-- C1: over any sequence of poll iterations against an API that only
returns records created at or after the queried watermark, the
watermark `since_instant` never decreases — including streams with
identical or out-of-order creation timestamps, which the iteration
re-sorts and folds with a strict-greater test; and whenever an
iteration accepts records carrying creation timestamps, the watermark
is set to the largest creation key among the records accepted in that
iteration. -/
theorem C1_watermark_monotone (fil : AlertFilter) (pOk : String → Bool) :
    (∀ (envs : List Env) (st : WatchState), (∀ e ∈ envs, GoodEnv e) →
      st.since ≤ (runWatch fil pOk envs st).since)
    ∧ (∀ (fetch : List String → List Alert) (st : WatchState) (ids : List String)
        (st2 : WatchState) (em : List Alert),
        watchIter fil pOk fetch st ids = Except.ok (st2, em) →
        truthyKeys em ≠ [] →
        st2.since ∈ truthyKeys em ∧ ∀ k ∈ truthyKeys em, k ≤ st2.since) :=
  ⟨runWatch_mono fil pOk,
   fun fetch st ids st2 em h hne =>
     watchIterG_max fil pOk okStore fetch st ids st2 em h hne⟩

/-- The expected state after one concrete iteration accepting one
record created at `2025-01-01`. -/
def c1StExpected : WatchState :=
  { since := "2025-01-01T00:00:00Z"
    seen := ["ind:9"]
    cache := [("ind:9", "cid:ind:9")]
    db := [mkRow alertC2 "ind:9" "cid:ind:9"]
    stats := statsAdd {} alertC2
    newCount := 1 }

/-- C1 witness: a good environment run keeps the watermark at or above
its start, and a concrete accepting iteration sets it to the largest
accepted creation key. -/
theorem C1_watermark_monotone_witness :
    "2024-12-31T00:00:00Z" ≤ (runWatch {} (fun _ => true)
      [Env.mk (fun _ => ["cid:ind:9"]) (fun _ => [])]
      { since := "2024-12-31T00:00:00Z" }).since
    ∧ (c1StExpected.since ∈ truthyKeys [alertC2]
      ∧ ∀ k ∈ truthyKeys [alertC2], k ≤ c1StExpected.since) := by
  constructor
  · apply (C1_watermark_monotone {} (fun _ => true)).1
    intro e he
    rw [List.mem_singleton] at he
    subst he
    intro s l _ a ha
    exact absurd ha (List.not_mem_nil a)
  · apply (C1_watermark_monotone {} (fun _ => true)).2
      (fun _ => [alertC2]) { since := "2024-12-31T00:00:00Z" } ["cid:ind:9"]
      c1StExpected [alertC2]
    · decide
    · decide

end Talon
